import Mathlib

/-
Verification of the blend-file reader (package `blend`, files `reader.go` and
`format.go`) against its natural-language specification.

Shallow embedding conventions:
  * a byte stream is a `List Nat` of byte values (each intended `< 256`);
  * Go's `io.Reader` position is threaded explicitly: every reading function
    takes the remaining stream and returns the unread rest;
  * a Go `map[string]T` is modelled as a function `List Nat → Option T`
    (Go strings are byte strings; keys here are byte lists), with assignment
    as pointwise function update — exactly Go's overwrite semantics;
  * fallible Go functions return `Except GoErr`; the only reader error a
    `bytes.Buffer`/`bytes.Reader` produces is `io.EOF`, raised exactly when
    the source is empty and at least one byte is requested.
-/

namespace Blend

/-- Byte order, mirroring the two `binary.ByteOrder` instances the reader uses
(`binary.LittleEndian` and `binary.BigEndian`). -/
inductive ByteOrder where
  | little
  | big
deriving DecidableEq

/-- Value of a byte list read little-endian: the first byte is least significant. -/
def leVal : List Nat → Nat
  | [] => 0
  | b :: rest => b + 256 * leVal rest

/-- Unsigned-integer field decoding as performed by `binary.Read` for the given
byte order: big-endian is little-endian of the reversed bytes. -/
def decodeUint (o : ByteOrder) (bs : List Nat) : Nat :=
  match o with
  | .little => leVal bs
  | .big => leVal bs.reverse

/-- Error values produced by the reader. `eof` is `io.EOF`; `invalidIdentifier`
is `errors.New("blend: invalid identifier")`; `blockNotFound name` is the
`fmt.Errorf("file block not found")` value of `getFileBlockData`; `wrapped tag e`
models the `fmt.Errorf(..., %w)` wrappings in `readSDNA` (tag 0: identifier,
tag 1: NameID, tag 2: NumNames). -/
inductive GoErr where
  | eof
  | invalidIdentifier
  | blockNotFound (name : List Nat)
  | wrapped (tag : Nat) (e : GoErr)
deriving DecidableEq

/-- Go `readNextBytes` (reader.go): allocates an `n`-byte zero slice and issues a
single `Read`. Against a `bytes.Buffer`/`bytes.Reader` source this fills
`min n s.length` bytes and errors (with `io.EOF`) only when the source is empty
and `n > 0`; a short read leaves the tail of the slice zero and is NOT detected
(the `FIXME: take care about n` in the source). -/
def readNextBytes (s : List Nat) (n : Nat) : Except GoErr (List Nat × List Nat) :=
  if n = 0 then .ok ([], s)
  else if s = [] then .error .eof
  else .ok (s.take n ++ List.replicate (n - s.length) 0, s.drop n)

/-- Go `FileHeader` (format.go): 7-byte identifier, pointer-size sentinel byte,
endianness sentinel byte, 3-byte version. -/
structure FileHeader where
  Identifier : List Nat
  PointerSize : Nat
  Endianness : Nat
  Version : List Nat
deriving DecidableEq

/-- The byte values of the magic literal "BLENDER". -/
def magicBytes : List Nat := [66, 76, 69, 78, 68, 69, 82]

/-- Effect of `binary.Read(buffer, order, &header)` on a 12-byte buffer for
`FileHeader`: every field is a byte or a byte array, so the result is
independent of the byte order. -/
def parseFileHeader (d : List Nat) : FileHeader :=
  ⟨d.take 7, d.getD 7 0, d.getD 8 0, (d.drop 9).take 3⟩

/-- Go `(*File).readHeader` (reader.go): read 12 bytes, pick the byte order from
the raw byte at offset 8 (value 86, the character V, means big-endian; anything
else little-endian) before parsing, check the identifier, and derive the pointer
size from the sentinel at offset 7 (value 95, the character _, means 32 bits;
anything else 64). Returns the parsed header, order, pointer size and the rest
of the stream. -/
def readHeader (s : List Nat) : Except GoErr (FileHeader × ByteOrder × Nat × List Nat) :=
  match readNextBytes s 12 with
  | .error e => .error e
  | .ok (data, rest) =>
    let order : ByteOrder := if data.getD 8 0 = 86 then .big else .little
    let header := parseFileHeader data
    if header.Identifier = magicBytes then
      let pointerSize : Nat := if header.PointerSize = 95 then 32 else 64
      .ok (header, order, pointerSize, rest)
    else .error .invalidIdentifier

/-- Go `FileBlockHeader64` (format.go). -/
structure FileBlockHeader64 where
  Code : List Nat
  Size : Nat
  OldMemoryAddress : Nat
  SDNAIndex : Nat
  Count : Nat
deriving DecidableEq

/-- Go `FileBlockHeader32` (format.go). -/
structure FileBlockHeader32 where
  Code : List Nat
  Size : Nat
  OldMemoryAddress : Nat
  SDNAIndex : Nat
  Count : Nat
deriving DecidableEq

/-- Go `FileBlock64` (format.go): parsed header plus payload bytes. -/
structure FileBlock64 where
  header : FileBlockHeader64
  data : List Nat
deriving DecidableEq

/-- Go `FileBlock32` (format.go). -/
structure FileBlock32 where
  header : FileBlockHeader32
  data : List Nat
deriving DecidableEq

/-- Effect of `binary.Read` on a 24-byte buffer for `FileBlockHeader64`:
4-byte code (order-independent), then Size (u32), OldMemoryAddress (u64),
SDNAIndex (u32), Count (u32) in the file's byte order. -/
def parseBlockHeader64 (o : ByteOrder) (d : List Nat) : FileBlockHeader64 :=
  ⟨d.take 4, decodeUint o ((d.drop 4).take 4), decodeUint o ((d.drop 8).take 8),
   decodeUint o ((d.drop 16).take 4), decodeUint o ((d.drop 20).take 4)⟩

/-- Effect of `binary.Read` on a 20-byte buffer for `FileBlockHeader32`:
as the 64-bit header but with a 4-byte OldMemoryAddress. -/
def parseBlockHeader32 (o : ByteOrder) (d : List Nat) : FileBlockHeader32 :=
  ⟨d.take 4, decodeUint o ((d.drop 4).take 4), decodeUint o ((d.drop 8).take 4),
   decodeUint o ((d.drop 12).take 4), decodeUint o ((d.drop 16).take 4)⟩

/-- Go `(*File).readFileBlockHeader64`: `f.read(24, &header)`; the byte order is
already determined here (NewFile set it), so the panic guard in `read` does not
fire and the call is `readNextBytes` followed by `binary.Read`. -/
def readFileBlockHeader64 (o : ByteOrder) (s : List Nat) :
    Except GoErr (FileBlockHeader64 × List Nat) :=
  match readNextBytes s 24 with
  | .error e => .error e
  | .ok (d, rest) => .ok (parseBlockHeader64 o d, rest)

/-- Go `(*File).readFileBlockHeader32`: `f.read(20, &header)`. -/
def readFileBlockHeader32 (o : ByteOrder) (s : List Nat) :
    Except GoErr (FileBlockHeader32 × List Nat) :=
  match readNextBytes s 20 with
  | .error e => .error e
  | .ok (d, rest) => .ok (parseBlockHeader32 o d, rest)

/-- Go `bytes.IndexByte(s, b)`: index of the first occurrence, if any. -/
def indexByte (s : List Nat) (b : Nat) : Option Nat :=
  match s with
  | [] => none
  | c :: rest => if c = b then some 0 else (indexByte rest b).map (· + 1)

/-- Go `byteSliceToString` (reader.go): the bytes up to (excluding) the first
NUL byte, or the whole slice when no NUL is present. -/
def byteSliceToString (s : List Nat) : List Nat :=
  match indexByte s 0 with
  | none => s
  | some n => s.take n

/-- The map `fileBlocks64` of the `File` struct, `map[string]FileBlock64`. -/
abbrev BlockMap64 := List Nat → Option FileBlock64

/-- The map `fileBlocks32` of the `File` struct, `map[string]FileBlock32`. -/
abbrev BlockMap32 := List Nat → Option FileBlock32

/-- A freshly made (or nil) Go map: every lookup misses. -/
def emptyMap64 : BlockMap64 := fun _ => none

/-- A freshly made (or nil) Go map: every lookup misses. -/
def emptyMap32 : BlockMap32 := fun _ => none

/-- Go map assignment `m[k] = v`: later assignments overwrite earlier ones. -/
def mapInsert64 (m : BlockMap64) (k : List Nat) (v : FileBlock64) : BlockMap64 :=
  fun q => if q = k then some v else m q

/-- Go map assignment `m[k] = v` for the 32-bit map. -/
def mapInsert32 (m : BlockMap32) (k : List Nat) (v : FileBlock32) : BlockMap32 :=
  fun q => if q = k then some v else m q

theorem readNextBytes_ok_shape (s : List Nat) (n : Nat) (d r : List Nat)
    (h : readNextBytes s n = .ok (d, r)) : r = s.drop n ∧ (n ≠ 0 → s ≠ []) := by
  unfold readNextBytes at h
  split at h
  · next hn =>
    subst hn
    simp only [Except.ok.injEq, Prod.mk.injEq] at h
    exact ⟨by rw [← h.2, List.drop_zero], fun hc => absurd rfl hc⟩
  · split at h
    · exact absurd h (by simp)
    · next hs =>
      simp only [Except.ok.injEq, Prod.mk.injEq] at h
      exact ⟨h.2.symm, fun _ => hs⟩

/-- Go `(*File).readFileBlocks`, 64-bit branch of the loop (reader.go): read a
block header; on `io.EOF` stop cleanly, on another error propagate it; then read
`Size` payload bytes (any error propagates) and assign the block into the map
under its NUL-stripped code; repeat. The loop terminates because a successful
header read always consumes at least one byte. -/
def readFileBlocks64 (o : ByteOrder) (s : List Nat) (m : BlockMap64) :
    Except GoErr BlockMap64 :=
  match hh : readFileBlockHeader64 o s with
  | .error e => if e = .eof then .ok m else .error e
  | .ok (hdr, rest) =>
    match hd : readNextBytes rest hdr.Size with
    | .error e => .error e
    | .ok (data, rest2) =>
      readFileBlocks64 o rest2 (mapInsert64 m (byteSliceToString hdr.Code) ⟨hdr, data⟩)
termination_by s.length
decreasing_by
  simp only [readFileBlockHeader64] at hh
  rcases hmatch : readNextBytes s 24 with e | p
  · rw [hmatch] at hh; exact absurd hh (by simp)
  · rw [hmatch] at hh
    obtain ⟨hr, hne⟩ := readNextBytes_ok_shape s 24 p.1 p.2 (by rw [hmatch])
    obtain ⟨hr2, _⟩ := readNextBytes_ok_shape rest hdr.Size data rest2 hd
    simp only [Except.ok.injEq] at hh
    have hh2 : p.2 = rest := congrArg Prod.snd hh
    have hrest : rest = List.drop 24 s := by rw [← hh2, hr]
    have hslen : s ≠ [] := hne (by norm_num)
    have h1 : rest2.length ≤ rest.length := by
      rw [hr2, List.length_drop]; exact Nat.sub_le _ _
    have h2 : rest.length < s.length := by
      rw [hrest, List.length_drop]
      exact Nat.sub_lt (List.length_pos.mpr hslen) (by norm_num)
    exact Nat.lt_of_le_of_lt h1 h2

/-- Go `(*File).readFileBlocks`, 32-bit branch of the loop: identical framing
with 20-byte headers, but the header-read error is returned directly — the
32-bit branch has no `errors.Is(err, io.EOF)` clean-end check. -/
def readFileBlocks32 (o : ByteOrder) (s : List Nat) (m : BlockMap32) :
    Except GoErr BlockMap32 :=
  match hh : readFileBlockHeader32 o s with
  | .error e => .error e
  | .ok (hdr, rest) =>
    match hd : readNextBytes rest hdr.Size with
    | .error e => .error e
    | .ok (data, rest2) =>
      readFileBlocks32 o rest2 (mapInsert32 m (byteSliceToString hdr.Code) ⟨hdr, data⟩)
termination_by s.length
decreasing_by
  simp only [readFileBlockHeader32] at hh
  rcases hmatch : readNextBytes s 20 with e | p
  · rw [hmatch] at hh; exact absurd hh (by simp)
  · rw [hmatch] at hh
    obtain ⟨hr, hne⟩ := readNextBytes_ok_shape s 20 p.1 p.2 (by rw [hmatch])
    obtain ⟨hr2, _⟩ := readNextBytes_ok_shape rest hdr.Size data rest2 hd
    simp only [Except.ok.injEq] at hh
    have hh2 : p.2 = rest := congrArg Prod.snd hh
    have hrest : rest = List.drop 20 s := by rw [← hh2, hr]
    have hslen : s ≠ [] := hne (by norm_num)
    have h1 : rest2.length ≤ rest.length := by
      rw [hr2, List.length_drop]; exact Nat.sub_le _ _
    have h2 : rest.length < s.length := by
      rw [hrest, List.length_drop]
      exact Nat.sub_lt (List.length_pos.mpr hslen) (by norm_num)
    exact Nat.lt_of_le_of_lt h1 h2

/-- State of the Go `File` struct after construction: parsed header, byte order
(`nil` until `readHeader` sets it, hence an `Option`), pointer size, and the two
block maps (Go leaves the unused one `nil`; a nil map reads like an empty one,
so both are modelled as maps). The `io.Reader` is threaded separately. -/
structure FileState where
  header : FileHeader
  order : Option ByteOrder
  pointerSize : Nat
  fileBlocks64 : BlockMap64
  fileBlocks32 : BlockMap32

/-- Go `NewFile` (reader.go): run `readHeader` on the stream; on success build
the `File` with the determined order and pointer size and fresh (empty) block
maps, returning also the rest of the stream. -/
def NewFile (s : List Nat) : Except GoErr (FileState × List Nat) :=
  match readHeader s with
  | .error e => .error e
  | .ok (hdr, o, ps, rest) =>
    .ok ({ header := hdr, order := some o, pointerSize := ps,
           fileBlocks64 := emptyMap64, fileBlocks32 := emptyMap32 }, rest)

/-- Go `(*File).readFileBlocks` top level: the loop body branches on
`f.pointerSize`, which never changes during the scan, so the scan is the 64-bit
loop when the pointer size is 64 and the 32-bit loop otherwise. The updated maps
are returned (in Go they are mutated in place on the `File`). -/
def readFileBlocks (o : ByteOrder) (pointerSize : Nat) (s : List Nat)
    (m64 : BlockMap64) (m32 : BlockMap32) : Except GoErr (BlockMap64 × BlockMap32) :=
  if pointerSize = 64 then
    match readFileBlocks64 o s m64 with
    | .error e => .error e
    | .ok m => .ok (m, m32)
  else
    match readFileBlocks32 o s m32 with
    | .error e => .error e
    | .ok m => .ok (m64, m)

/-- Go `(*File).getFileBlockData` (reader.go): look the name up in the map for
the file's pointer size; a miss is the "file block not found" error, a hit
yields a `bytes.NewReader` over the block's data, modelled as the data bytes
themselves. -/
def getFileBlockData (f : FileState) (name : List Nat) : Except GoErr (List Nat) :=
  if f.pointerSize = 64 then
    match f.fileBlocks64 name with
    | none => .error (.blockNotFound name)
    | some b => .ok b.data
  else
    match f.fileBlocks32 name with
    | none => .error (.blockNotFound name)
    | some b => .ok b.data

/-- Go `StructureDNA` (format.go), restricted to the fields `readSDNA` actually
assigns: Identifier, NameID, NumNames and Names. The remaining fields of the
Go struct (TypeID, NumTypes, Types, LenID, Lengths, StructID, NumStructs,
Structs) are never written by `readSDNA` and stay zero-valued. -/
structure StructureDNA where
  Identifier : List Nat
  NameID : List Nat
  NumNames : Nat
  Names : List (List Nat)
deriving DecidableEq

/-- Name-decoding loop of Go `readSDNA`: while fewer than `remaining` names have
been completed, read one byte; a NUL byte finishes the current name (stored in
order), any other byte is appended to the current name. The Go loop fills a
preallocated `names[namesIdx]` slot at each NUL; filling slots left to right is
modelled by appending to the accumulator. -/
def readNames (remaining : Nat) (curr : List Nat) (acc : List (List Nat))
    (s : List Nat) : Except GoErr (List (List Nat)) :=
  if remaining = 0 then .ok acc
  else
    match hb : readNextBytes s 1 with
    | .error e => .error e
    | .ok (b, rest) =>
      if b.getD 0 0 = 0 then readNames (remaining - 1) [] (acc ++ [curr]) rest
      else readNames remaining (curr ++ b) acc rest
termination_by s.length
decreasing_by
  all_goals
    obtain ⟨hr, hne⟩ := readNextBytes_ok_shape s 1 b rest hb
    have hs : s ≠ [] := hne (by norm_num)
    rw [hr, List.length_drop]
    exact Nat.sub_lt (List.length_pos.mpr hs) (by norm_num)

/-- The byte values of the schema block code "DNA1". -/
def keyDNA1 : List Nat := [68, 78, 65, 49]

/-- Go `(*File).readSDNA` (reader.go): fetch the "DNA1" block's data, read the
4-byte Identifier, 4-byte NameID and the 4-byte NumNames count (an uint32 in
the file's byte order), then run the NUL-scanning name loop for that many
names. `f.order` is always set when `readSDNA` is reachable (`NewFile` sets it
before returning); the `getD` default covers the unreachable `nil` case. -/
def readSDNA (f : FileState) : Except GoErr StructureDNA :=
  match getFileBlockData f keyDNA1 with
  | .error e => .error e
  | .ok data =>
    match readNextBytes data 4 with
    | .error e => .error (.wrapped 0 e)
    | .ok (ident, s1) =>
      match readNextBytes s1 4 with
      | .error e => .error (.wrapped 1 e)
      | .ok (nameID, s2) =>
        match readNextBytes s2 4 with
        | .error e => .error (.wrapped 2 e)
        | .ok (numB, s3) =>
          let numNames := decodeUint (f.order.getD ByteOrder.little) numB
          match readNames numNames [] [] s3 with
          | .error e => .error e
          | .ok names => .ok ⟨ident, nameID, numNames, names⟩

/-- Outcome of a call to the method `(*File).read`, which can panic. -/
inductive ReadOutcome (α : Type) where
  | panicked
  | fail (e : GoErr)
  | ok (a : α)
deriving DecidableEq

/-- Go `(*File).read` (reader.go): panics when `f.order` is still nil (header
not yet read); otherwise fetches `n` bytes and hands them, with the byte order,
to `binary.Read` for parsing into the caller's target — the fetched bytes and
the order determine that parse, so they are returned. -/
def fileRead (order : Option ByteOrder) (s : List Nat) (n : Nat) :
    ReadOutcome (ByteOrder × List Nat × List Nat) :=
  match order with
  | none => .panicked
  | some o =>
    match readNextBytes s n with
    | .error e => .fail e
    | .ok (d, rest) => .ok (o, d, rest)

theorem readNextBytes_exact (s : List Nat) (n : Nat) (h : n ≤ s.length) :
    readNextBytes s n = .ok (s.take n, s.drop n) := by
  unfold readNextBytes
  by_cases hn : n = 0
  · subst hn; simp
  · have hs : s ≠ [] := by
      intro he
      rw [he] at h
      simp only [List.length_nil, Nat.le_zero] at h
      exact hn h
    rw [if_neg hn, if_neg hs, Nat.sub_eq_zero_of_le h]
    simp

theorem readNextBytes_cons_one (a : Nat) (s : List Nat) :
    readNextBytes (a :: s) 1 = .ok ([a], s) := by
  rw [readNextBytes_exact (a :: s) 1 (by simp)]
  simp

theorem readFileBlockHeader64_nil (o : ByteOrder) :
    readFileBlockHeader64 o [] = .error .eof := by
  unfold readFileBlockHeader64 readNextBytes
  simp

theorem readFileBlocks64_nil (o : ByteOrder) (m : BlockMap64) :
    readFileBlocks64 o [] m = .ok m := by
  rw [readFileBlocks64]
  split
  · next e heq =>
    rw [readFileBlockHeader64_nil] at heq
    simp only [Except.error.injEq] at heq
    rw [← heq]
    simp
  · next hdr rest heq =>
    rw [readFileBlockHeader64_nil] at heq
    exact absurd heq (by simp)

/-- One step of the 64-bit scan loop on a well-framed prefix: a 24-byte header
followed by exactly its declared payload is consumed and assigned into the map
under the NUL-stripped code, and scanning continues with the rest — whatever
the block's code is. -/
theorem readFileBlocks64_step (o : ByteOrder) (h24 data rest : List Nat) (m : BlockMap64)
    (hlen : h24.length = 24)
    (hsz : (parseBlockHeader64 o h24).Size = data.length) :
    readFileBlocks64 o (h24 ++ (data ++ rest)) m =
      readFileBlocks64 o rest
        (mapInsert64 m (byteSliceToString (parseBlockHeader64 o h24).Code)
          ⟨parseBlockHeader64 o h24, data⟩) := by
  have hhdr : readFileBlockHeader64 o (h24 ++ (data ++ rest)) =
      .ok (parseBlockHeader64 o h24, data ++ rest) := by
    unfold readFileBlockHeader64
    rw [readNextBytes_exact _ 24 (by simp [hlen]), List.take_left' hlen,
      List.drop_left' hlen]
  have hdata : readNextBytes (data ++ rest) (parseBlockHeader64 o h24).Size =
      .ok (data, rest) := by
    rw [hsz, readNextBytes_exact _ _ (by simp), List.take_left' rfl, List.drop_left' rfl]
  rw [readFileBlocks64]
  split
  · next e heq =>
    rw [hhdr] at heq
    exact absurd heq (by simp)
  · next hdr rest' heq =>
    rw [hhdr] at heq
    simp only [Except.ok.injEq, Prod.mk.injEq] at heq
    obtain ⟨hhdr_eq, hrest_eq⟩ := heq
    subst hhdr_eq
    subst hrest_eq
    split
    · next e heq2 =>
      rw [hdata] at heq2
      exact absurd heq2 (by simp)
    · next data' rest2 heq2 =>
      rw [hdata] at heq2
      simp only [Except.ok.injEq, Prod.mk.injEq] at heq2
      obtain ⟨h1, h2⟩ := heq2
      subst h1
      subst h2
      rfl

theorem indexByte_strip (p : List Nat) (k : Nat) (hp : 0 ∉ p) :
    indexByte (p ++ List.replicate k 0) 0 = if k = 0 then none else some p.length := by
  induction p with
  | nil =>
    cases k with
    | zero => simp [indexByte]
    | succ n => simp [List.replicate, indexByte]
  | cons a t ih =>
    have ha : a ≠ 0 := fun he => hp (by simp [he])
    have ht : 0 ∉ t := fun hm => hp (List.mem_cons_of_mem a hm)
    rw [List.cons_append, indexByte, if_neg ha, ih ht]
    cases k with
    | zero => simp
    | succ n => simp

/-- The key computed by `byteSliceToString` for a NUL-padded code is the code
with the trailing NUL padding stripped. -/
theorem byteSliceToString_strip (p : List Nat) (k : Nat) (hp : 0 ∉ p) :
    byteSliceToString (p ++ List.replicate k 0) = p := by
  unfold byteSliceToString
  rw [indexByte_strip p k hp]
  cases k with
  | zero => simp
  | succ n => simp [List.take_left' rfl]

/-- Helper for building schema-block payloads in theorem statements: each name
followed by its NUL terminator, byte-packed with no padding. -/
def packNames : List (List Nat) → List Nat
  | [] => []
  | nm :: rest => nm ++ [0] ++ packNames rest

theorem readNames_consume_name (nm : List Nat) (hnm : 0 ∉ nm) (r : Nat)
    (curr : List Nat) (acc : List (List Nat)) (s : List Nat) :
    readNames (r + 1) curr acc (nm ++ 0 :: s) = readNames r [] (acc ++ [curr ++ nm]) s := by
  induction nm generalizing curr with
  | nil =>
    rw [readNames, if_neg (Nat.succ_ne_zero r)]
    split
    · next e heq =>
      rw [List.nil_append] at heq
      rw [readNextBytes_cons_one] at heq
      exact absurd heq (by simp)
    · next b rest' heq =>
      rw [List.nil_append] at heq
      rw [readNextBytes_cons_one] at heq
      simp only [Except.ok.injEq, Prod.mk.injEq] at heq
      obtain ⟨h1, h2⟩ := heq
      subst h1
      subst h2
      simp
  | cons a t ih =>
    have ha : a ≠ 0 := fun he => hnm (by simp [he])
    have ht : 0 ∉ t := fun hm => hnm (List.mem_cons_of_mem a hm)
    rw [readNames, if_neg (Nat.succ_ne_zero r)]
    split
    · next e heq =>
      rw [List.cons_append, readNextBytes_cons_one] at heq
      exact absurd heq (by simp)
    · next b rest' heq =>
      rw [List.cons_append, readNextBytes_cons_one] at heq
      simp only [Except.ok.injEq, Prod.mk.injEq] at heq
      obtain ⟨h1, h2⟩ := heq
      subst h1
      subst h2
      rw [if_neg (by simpa using ha)]
      have h3 := ih ht (curr ++ [a])
      simpa using h3

/-- The name loop decodes exactly `names.length` NUL-terminated names from a
packed name section, in order, ignoring any bytes after the last terminator. -/
theorem readNames_pack (names : List (List Nat)) (hn : ∀ nm ∈ names, 0 ∉ nm)
    (acc : List (List Nat)) (extra : List Nat) :
    readNames names.length [] acc (packNames names ++ extra) = .ok (acc ++ names) := by
  induction names generalizing acc with
  | nil =>
    rw [readNames]
    simp
  | cons nm rest ih =>
    have h1 : 0 ∉ nm := hn nm (by simp)
    have h2 : ∀ x ∈ rest, 0 ∉ x := fun x hx => hn x (by simp [hx])
    have hsplit : packNames (nm :: rest) ++ extra = nm ++ 0 :: (packNames rest ++ extra) := by
      simp [packNames]
    rw [List.length_cons, hsplit, readNames_consume_name nm h1, ih h2]
    simp

/-- A sample parsed file header ("BLENDER-v280") for building `FileState`
values in concrete statements. -/
def dummyHeader : FileHeader := ⟨magicBytes, 45, 118, [50, 56, 48]⟩

/-- A 12-byte header stream "BLENDER-v280": 64-bit pointers, little-endian. -/
def hdr12le : List Nat := [66, 76, 69, 78, 68, 69, 82, 45, 118, 50, 56, 48]

/-- A 24-byte little-endian 64-bit block header: code "ENDB" (the terminal
code), size 0, address 0, SDNA index 0, count 0. -/
def endbHeader : List Nat := [69, 78, 68, 66] ++ List.replicate 20 0

/-- A 24-byte little-endian 64-bit block header: code "TEST", size 1,
address 2, SDNA index 0, count 0. -/
def testHeader : List Nat :=
  [84, 69, 83, 84, 1, 0, 0, 0, 2, 0, 0, 0, 0, 0, 0, 0, 0, 0, 0, 0, 0, 0, 0, 0]

/-- A 24-byte little-endian 64-bit block header: code "TEST", size 1,
address 3, SDNA index 0, count 0. -/
def testHeaderA : List Nat :=
  [84, 69, 83, 84, 1, 0, 0, 0, 3, 0, 0, 0, 0, 0, 0, 0, 0, 0, 0, 0, 0, 0, 0, 0]

/-- A 24-byte little-endian 64-bit block header: code "AAAA", size 0,
address 5, SDNA index 0, count 0. -/
def aaaaHeader : List Nat :=
  [65, 65, 65, 65, 0, 0, 0, 0, 5, 0, 0, 0, 0, 0, 0, 0, 0, 0, 0, 0, 0, 0, 0, 0]

/-- A 24-byte little-endian 64-bit block header: code "BBBB", size 0,
address 5 (deliberately equal to the "AAAA" block's address), SDNA index 0,
count 0. -/
def bbbbHeader : List Nat :=
  [66, 66, 66, 66, 0, 0, 0, 0, 5, 0, 0, 0, 0, 0, 0, 0, 0, 0, 0, 0, 0, 0, 0, 0]

/-- Stream for C1: a terminal "ENDB" block (size 0) followed by a trailing
"TEST" block with one payload byte. -/
def c1stream : List Nat := endbHeader ++ ([] ++ (testHeader ++ ([9] ++ [])))

/-- Stream for C2: two blocks that share the code "TEST", with payloads `[7]`
and `[9]` and distinct addresses. -/
def c2stream : List Nat := testHeaderA ++ ([7] ++ (testHeader ++ ([9] ++ [])))

/-- Stream for C3: blocks "AAAA" and "BBBB" carrying the same legacy address 5. -/
def c3stream : List Nat := aaaaHeader ++ ([] ++ (bbbbHeader ++ ([] ++ [])))

/-- C1 counterexample: scanning the concrete stream whose first block has the
terminal code "ENDB" and whose trailing bytes form a "TEST" block ends with
`ok` (not `TruncatedFile`, although the most recently read block's code is
"TEST", not the terminal code) and has indexed the trailing "TEST" block
(so scanning did NOT stop at the terminal block). This refutes both halves of
the claim: there is no terminal-code check and no `TruncatedFile` error in
`readFileBlocks`. -/
theorem C1_counterexample :
    readFileBlocks ByteOrder.little 64 c1stream emptyMap64 emptyMap32 =
      .ok (mapInsert64
            (mapInsert64 emptyMap64 [69, 78, 68, 66] ⟨⟨[69, 78, 68, 66], 0, 0, 0, 0⟩, []⟩)
            [84, 69, 83, 84] ⟨⟨[84, 69, 83, 84], 1, 2, 0, 0⟩, [9]⟩,
          emptyMap32) := by
  unfold c1stream readFileBlocks
  rw [if_pos rfl]
  rw [readFileBlocks64_step ByteOrder.little endbHeader [] _ _ (by decide) (by decide)]
  rw [readFileBlocks64_step ByteOrder.little testHeader [9] _ _ (by decide) (by decide)]
  rw [readFileBlocks64_nil]
  rfl

/-- C1 amended: after a successful header read, the 64-bit scan loop reads
blocks until the stream is exhausted at a block-header read, which is always a
clean end whatever the code of the last block read; a block with the terminal
code does not stop the scan — it is indexed like any other block and scanning
continues with the remaining bytes. -/
theorem C1_scan_end_amended (o : ByteOrder) (m64 : BlockMap64) (m32 : BlockMap32)
    (h24 data rest : List Nat) (hlen : h24.length = 24)
    (hsz : (parseBlockHeader64 o h24).Size = data.length) :
    readFileBlocks o 64 [] m64 m32 = .ok (m64, m32) ∧
    readFileBlocks o 64 (h24 ++ (data ++ rest)) m64 m32 =
      readFileBlocks o 64 rest
        (mapInsert64 m64 (byteSliceToString (parseBlockHeader64 o h24).Code)
          ⟨parseBlockHeader64 o h24, data⟩) m32 := by
  constructor
  · unfold readFileBlocks
    rw [if_pos rfl, readFileBlocks64_nil]
  · unfold readFileBlocks
    rw [if_pos rfl, if_pos rfl, readFileBlocks64_step o h24 data rest m64 hlen hsz]

/-- C1 witness: the amended scan behaviour at the concrete terminal block. -/
theorem C1_scan_end_amended_witness :
    readFileBlocks ByteOrder.little 64 [] emptyMap64 emptyMap32 = .ok (emptyMap64, emptyMap32) ∧
    readFileBlocks ByteOrder.little 64 (endbHeader ++ ([] ++ (testHeader ++ ([9] ++ []))))
        emptyMap64 emptyMap32 =
      readFileBlocks ByteOrder.little 64 (testHeader ++ ([9] ++ []))
        (mapInsert64 emptyMap64
          (byteSliceToString (parseBlockHeader64 ByteOrder.little endbHeader).Code)
          ⟨parseBlockHeader64 ByteOrder.little endbHeader, []⟩) emptyMap32 :=
  C1_scan_end_amended ByteOrder.little emptyMap64 emptyMap32 endbHeader []
    (testHeader ++ ([9] ++ [])) (by decide) (by decide)

/-- C2 counterexample: scanning the concrete stream with two "TEST" blocks
(payloads `[7]` then `[9]`) produces a catalog whose lookup of "TEST" is
exactly the single second block — the first "TEST" block has been overwritten,
so the code index is single-valued, not an insertion-ordered multi-map. -/
theorem C2_counterexample :
    readFileBlocks ByteOrder.little 64 c2stream emptyMap64 emptyMap32 =
      .ok (mapInsert64
            (mapInsert64 emptyMap64 [84, 69, 83, 84] ⟨⟨[84, 69, 83, 84], 1, 3, 0, 0⟩, [7]⟩)
            [84, 69, 83, 84] ⟨⟨[84, 69, 83, 84], 1, 2, 0, 0⟩, [9]⟩,
          emptyMap32) ∧
    (mapInsert64
      (mapInsert64 emptyMap64 [84, 69, 83, 84] ⟨⟨[84, 69, 83, 84], 1, 3, 0, 0⟩, [7]⟩)
      [84, 69, 83, 84] ⟨⟨[84, 69, 83, 84], 1, 2, 0, 0⟩, [9]⟩) [84, 69, 83, 84]
      = some ⟨⟨[84, 69, 83, 84], 1, 2, 0, 0⟩, [9]⟩ := by
  constructor
  · unfold c2stream readFileBlocks
    rw [if_pos rfl]
    rw [readFileBlocks64_step ByteOrder.little testHeaderA [7] _ _ (by decide) (by decide)]
    rw [readFileBlocks64_step ByteOrder.little testHeader [9] _ _ (by decide) (by decide)]
    rw [readFileBlocks64_nil]
    rfl
  · unfold mapInsert64
    rw [if_pos rfl]

/-- C2 amended: the catalog maps each code to the single most recently read
block with that code — a later block with the same (NUL-stripped) code
overwrites the earlier one, so a code lookup after the scan returns only the
last of the k blocks sharing the code. -/
theorem C2_last_insert_wins (o : ByteOrder) (ha da hb db : List Nat)
    (hla : ha.length = 24) (hsa : (parseBlockHeader64 o ha).Size = da.length)
    (hlb : hb.length = 24) (hsb : (parseBlockHeader64 o hb).Size = db.length)
    (hkey : byteSliceToString (parseBlockHeader64 o ha).Code
          = byteSliceToString (parseBlockHeader64 o hb).Code) :
    ∃ m64, readFileBlocks o 64 (ha ++ (da ++ (hb ++ (db ++ [])))) emptyMap64 emptyMap32
        = .ok (m64, emptyMap32) ∧
      m64 (byteSliceToString (parseBlockHeader64 o ha).Code)
        = some ⟨parseBlockHeader64 o hb, db⟩ := by
  refine ⟨mapInsert64
    (mapInsert64 emptyMap64 (byteSliceToString (parseBlockHeader64 o ha).Code)
      ⟨parseBlockHeader64 o ha, da⟩)
    (byteSliceToString (parseBlockHeader64 o hb).Code)
    ⟨parseBlockHeader64 o hb, db⟩, ?_, ?_⟩
  · unfold readFileBlocks
    rw [if_pos rfl, readFileBlocks64_step o ha da _ _ hla hsa,
      readFileBlocks64_step o hb db _ _ hlb hsb, readFileBlocks64_nil]
  · unfold mapInsert64
    rw [hkey, if_pos rfl]

/-- C2 witness: the amended lookup at the two concrete "TEST" blocks. -/
theorem C2_last_insert_wins_witness :
    ∃ m64, readFileBlocks ByteOrder.little 64
        (testHeaderA ++ ([7] ++ (testHeader ++ ([9] ++ [])))) emptyMap64 emptyMap32
        = .ok (m64, emptyMap32) ∧
      m64 (byteSliceToString (parseBlockHeader64 ByteOrder.little testHeaderA).Code)
        = some ⟨parseBlockHeader64 ByteOrder.little testHeader, [9]⟩ :=
  C2_last_insert_wins ByteOrder.little testHeaderA [7] testHeader [9]
    (by decide) (by decide) (by decide) (by decide) (by decide)

/-- C3 counterexample: scanning the concrete stream with two blocks carrying
the same legacy address 5 succeeds (no `CorruptCatalog` error) and both blocks
are indexed by their codes; their equal addresses sit untouched inside the
stored headers, so no single-valued address index exists to violate. -/
theorem C3_counterexample :
    readFileBlocks ByteOrder.little 64 c3stream emptyMap64 emptyMap32 =
      .ok (mapInsert64
            (mapInsert64 emptyMap64 [65, 65, 65, 65] ⟨⟨[65, 65, 65, 65], 0, 5, 0, 0⟩, []⟩)
            [66, 66, 66, 66] ⟨⟨[66, 66, 66, 66], 0, 5, 0, 0⟩, []⟩,
          emptyMap32) ∧
    (⟨⟨[65, 65, 65, 65], 0, 5, 0, 0⟩, []⟩ : FileBlock64).header.OldMemoryAddress
      = (⟨⟨[66, 66, 66, 66], 0, 5, 0, 0⟩, []⟩ : FileBlock64).header.OldMemoryAddress := by
  constructor
  · unfold c3stream readFileBlocks
    rw [if_pos rfl]
    rw [readFileBlocks64_step ByteOrder.little aaaaHeader [] _ _ (by decide) (by decide)]
    rw [readFileBlocks64_step ByteOrder.little bbbbHeader [] _ _ (by decide) (by decide)]
    rw [readFileBlocks64_nil]
    rfl
  · rfl

/-- C3 amended: `readFileBlocks` maintains no index by legacy address; two
blocks whose headers carry the same legacy address are both accepted without
error and indexed under their (distinct) codes, the shared address remaining
only as a field inside each stored header. -/
theorem C3_duplicate_addresses_accepted (o : ByteOrder) (ha da hb db : List Nat)
    (hla : ha.length = 24) (hsa : (parseBlockHeader64 o ha).Size = da.length)
    (hlb : hb.length = 24) (hsb : (parseBlockHeader64 o hb).Size = db.length)
    (haddr : (parseBlockHeader64 o ha).OldMemoryAddress
           = (parseBlockHeader64 o hb).OldMemoryAddress)
    (hkeys : byteSliceToString (parseBlockHeader64 o ha).Code
           ≠ byteSliceToString (parseBlockHeader64 o hb).Code) :
    ∃ m64, readFileBlocks o 64 (ha ++ (da ++ (hb ++ (db ++ [])))) emptyMap64 emptyMap32
        = .ok (m64, emptyMap32) ∧
      m64 (byteSliceToString (parseBlockHeader64 o ha).Code)
        = some ⟨parseBlockHeader64 o ha, da⟩ ∧
      m64 (byteSliceToString (parseBlockHeader64 o hb).Code)
        = some ⟨parseBlockHeader64 o hb, db⟩ := by
  refine ⟨mapInsert64
    (mapInsert64 emptyMap64 (byteSliceToString (parseBlockHeader64 o ha).Code)
      ⟨parseBlockHeader64 o ha, da⟩)
    (byteSliceToString (parseBlockHeader64 o hb).Code)
    ⟨parseBlockHeader64 o hb, db⟩, ?_, ?_, ?_⟩
  · unfold readFileBlocks
    rw [if_pos rfl, readFileBlocks64_step o ha da _ _ hla hsa,
      readFileBlocks64_step o hb db _ _ hlb hsb, readFileBlocks64_nil]
  · unfold mapInsert64
    rw [if_neg hkeys, if_pos rfl]
  · unfold mapInsert64
    rw [if_pos rfl]

/-- C3 witness: the amended acceptance at the concrete same-address blocks. -/
theorem C3_duplicate_addresses_accepted_witness :
    ∃ m64, readFileBlocks ByteOrder.little 64
        (aaaaHeader ++ ([] ++ (bbbbHeader ++ ([] ++ [])))) emptyMap64 emptyMap32
        = .ok (m64, emptyMap32) ∧
      m64 (byteSliceToString (parseBlockHeader64 ByteOrder.little aaaaHeader).Code)
        = some ⟨parseBlockHeader64 ByteOrder.little aaaaHeader, []⟩ ∧
      m64 (byteSliceToString (parseBlockHeader64 ByteOrder.little bbbbHeader).Code)
        = some ⟨parseBlockHeader64 ByteOrder.little bbbbHeader, []⟩ :=
  C3_duplicate_addresses_accepted ByteOrder.little aaaaHeader [] bbbbHeader []
    (by decide) (by decide) (by decide) (by decide) (by decide) (by decide)

/-- The `File` value `NewFile` hands back on success: the given header, order
and pointer size, with fresh empty block maps. -/
def initialFileState (hdr : FileHeader) (o : ByteOrder) (ps : Nat) : FileState :=
  { header := hdr, order := some o, pointerSize := ps,
    fileBlocks64 := emptyMap64, fileBlocks32 := emptyMap32 }

/-- Evaluation of `NewFile` on any exactly-12-byte stream that begins with the
magic literal: the stream is accepted, the order is big-endian exactly when the
raw byte at offset 8 is 86 (the character V), and the pointer size is 32 bits
exactly when the raw byte at offset 7 is 95 (the character _). -/
theorem NewFile_magic (s : List Nat) (hlen : s.length = 12) (hmagic : s.take 7 = magicBytes) :
    NewFile s = .ok (initialFileState (parseFileHeader s)
      (if s.getD 8 0 = 86 then ByteOrder.big else ByteOrder.little)
      (if s.getD 7 0 = 95 then 32 else 64), s.drop 12) := by
  have htake : s.take 12 = s := List.take_of_length_le (by rw [hlen])
  have hid : (parseFileHeader s).Identifier = magicBytes := by
    rw [← hmagic]
    rfl
  unfold NewFile readHeader initialFileState
  rw [readNextBytes_exact s 12 (by rw [hlen]), htake]
  simp [parseFileHeader, hmagic]

/-- C4 counterexample: the 12-byte header "BLENDER" + byte 88 (the character X,
not a recognized pointer-width sentinel) + byte 122 (the character z, not a
recognized byte-order sentinel) + "280" is accepted by `NewFile` — no
`InvalidHeaderField` error occurs; the unrecognized sentinels silently decode
as 64-bit little-endian. -/
theorem C4_counterexample :
    NewFile [66, 76, 69, 78, 68, 69, 82, 88, 122, 50, 56, 48] =
      .ok (initialFileState ⟨magicBytes, 88, 122, [50, 56, 48]⟩ ByteOrder.little 64, []) := by
  rfl

/-- C4 amended: `NewFile` performs no sentinel validation. Every 12-byte header
beginning with the magic literal is accepted, whatever bytes 7 and 8 hold: a
byte 7 other than 95 (the character _) is treated as 64-bit pointers and a
byte 8 other than 86 (the character V) as little-endian. -/
theorem C4_no_sentinel_validation (s : List Nat) (hlen : s.length = 12)
    (hmagic : s.take 7 = magicBytes) :
    NewFile s = .ok (initialFileState (parseFileHeader s)
      (if s.getD 8 0 = 86 then ByteOrder.big else ByteOrder.little)
      (if s.getD 7 0 = 95 then 32 else 64), s.drop 12) :=
  NewFile_magic s hlen hmagic

/-- C4 witness: the amended acceptance at the concrete invalid-sentinel header. -/
theorem C4_no_sentinel_validation_witness :
    NewFile [66, 76, 69, 78, 68, 69, 82, 88, 122, 50, 56, 48] =
      .ok (initialFileState (parseFileHeader [66, 76, 69, 78, 68, 69, 82, 88, 122, 50, 56, 48])
        (if [66, 76, 69, 78, 68, 69, 82, 88, 122, 50, 56, 48].getD 8 0 = 86
          then ByteOrder.big else ByteOrder.little)
        (if [66, 76, 69, 78, 68, 69, 82, 88, 122, 50, 56, 48].getD 7 0 = 95
          then 32 else 64),
        [66, 76, 69, 78, 68, 69, 82, 88, 122, 50, 56, 48].drop 12) :=
  C4_no_sentinel_validation [66, 76, 69, 78, 68, 69, 82, 88, 122, 50, 56, 48]
    (by decide) (by decide)

/-- C5: for every 12-byte header with the magic literal and valid sentinel
bytes, the byte order is determined from the raw byte at offset 8 — 86 (the
character V) gives big-endian, 118 (the character v) little-endian — and the
pointer width from the raw byte at offset 7 — 45 (the character -) gives
64-bit, 95 (the character _) 32-bit. The decision inspects only the raw
sentinel bytes: it happens before the byte-order-dependent decode (and the
header fields themselves are all byte-sized, so no order-aware read is
involved). -/
theorem C5_sentinel_decoding (s : List Nat) (hlen : s.length = 12)
    (hmagic : s.take 7 = magicBytes)
    (h7 : s.getD 7 0 = 45 ∨ s.getD 7 0 = 95)
    (h8 : s.getD 8 0 = 118 ∨ s.getD 8 0 = 86) :
    ∃ f rest, NewFile s = .ok (f, rest) ∧
      (f.order = some ByteOrder.big ↔ s.getD 8 0 = 86) ∧
      (f.order = some ByteOrder.little ↔ s.getD 8 0 = 118) ∧
      (f.pointerSize = 64 ↔ s.getD 7 0 = 45) ∧
      (f.pointerSize = 32 ↔ s.getD 7 0 = 95) := by
  refine ⟨_, _, NewFile_magic s hlen hmagic, ?_, ?_, ?_, ?_⟩
  · rcases h8 with h | h <;> rw [h] <;> simp [initialFileState]
  · rcases h8 with h | h <;> rw [h] <;> simp [initialFileState]
  · rcases h7 with h | h <;> rw [h] <;> simp [initialFileState]
  · rcases h7 with h | h <;> rw [h] <;> simp [initialFileState]

/-- C5 witness: the sentinel decoding at the concrete big-endian 32-bit header
"BLENDER_V280". -/
theorem C5_sentinel_decoding_witness :
    ∃ f rest,
      NewFile [66, 76, 69, 78, 68, 69, 82, 95, 86, 50, 56, 48] = .ok (f, rest) ∧
      (f.order = some ByteOrder.big ↔
        [66, 76, 69, 78, 68, 69, 82, 95, 86, 50, 56, 48].getD 8 0 = 86) ∧
      (f.order = some ByteOrder.little ↔
        [66, 76, 69, 78, 68, 69, 82, 95, 86, 50, 56, 48].getD 8 0 = 118) ∧
      (f.pointerSize = 64 ↔
        [66, 76, 69, 78, 68, 69, 82, 95, 86, 50, 56, 48].getD 7 0 = 45) ∧
      (f.pointerSize = 32 ↔
        [66, 76, 69, 78, 68, 69, 82, 95, 86, 50, 56, 48].getD 7 0 = 95) :=
  C5_sentinel_decoding [66, 76, 69, 78, 68, 69, 82, 95, 86, 50, 56, 48]
    (by decide) (by decide) (by decide) (by decide)

/-- C6: every stream holding at least 7 bytes whose first 7 bytes are not the
magic literal "BLENDER" makes `NewFile` return the invalid-identifier error,
whatever the remaining content of the stream. -/
theorem C6_invalid_identifier (s : List Nat) (hlen : 7 ≤ s.length)
    (hmagic : s.take 7 ≠ magicBytes) :
    NewFile s = .error .invalidIdentifier := by
  have hs : s ≠ [] := by
    intro he
    rw [he] at hlen
    simp at hlen
  unfold NewFile readHeader readNextBytes
  rw [if_neg (by norm_num), if_neg hs]
  have hid : (parseFileHeader (s.take 12 ++ List.replicate (12 - s.length) 0)).Identifier
      = s.take 7 := by
    show (s.take 12 ++ List.replicate (12 - s.length) 0).take 7 = s.take 7
    rw [List.take_append_of_le_length (by simp; omega), List.take_take]
    norm_num
  simp [hid, hmagic]

/-- C6 witness: the invalid-identifier error at the concrete header
"NOBLEND-v280". -/
theorem C6_invalid_identifier_witness :
    NewFile [78, 79, 66, 76, 69, 78, 68, 45, 118, 50, 56, 48] =
      .error .invalidIdentifier :=
  C6_invalid_identifier [78, 79, 66, 76, 69, 78, 68, 45, 118, 50, 56, 48]
    (by decide) (by decide)

/-- C7: evaluation of the code at the failing input. The stream holding only
the 7 bytes "BLENDER" — fewer than the 12 a header needs — is ACCEPTED by
`NewFile`: the single `Read` in `readNextBytes` returns the 7 available bytes
with no error, the ignored count (the FIXME in the source) leaves the last 5
header bytes zero, and the zero bytes decode as version 0.0.0, 64-bit,
little-endian. The claim's `MalformedHeader` failure never happens, so the
code contradicts the documented contract of consuming exactly 12 bytes or
failing. -/
theorem C7_short_header_accepted :
    NewFile magicBytes =
      .ok (initialFileState ⟨magicBytes, 0, 0, [0, 0, 0]⟩ ByteOrder.little 64, []) := by
  rfl

/-- Payload of a well-formed "DNA1" schema block prefix: identifier "SDNA",
name-section tag "NAME", count 2 (little-endian), then the two NUL-terminated
names "ID" and "ME". -/
def dnaPayload : List Nat :=
  [83, 68, 78, 65] ++ ([78, 65, 77, 69] ++ ([2, 0, 0, 0] ++ (packNames [[73, 68], [77, 69]] ++ [])))

/-- A concrete "DNA1" block holding `dnaPayload`. -/
def dnaBlock : FileBlock64 := ⟨⟨keyDNA1, 20, 9, 0, 0⟩, dnaPayload⟩

/-- C8: `readSDNA` fails when the catalog holds no block under the schema code
"DNA1"; otherwise, with the "DNA1" block's data laid out as a 4-byte section
identifier, a 4-byte tag, a 4-byte name count and that many NUL-terminated
byte-packed names, it decodes by scanning for NUL bytes and produces a name
table whose length equals the declared count and whose entries are the decoded
names in order. -/
theorem C8_sdna (o : ByteOrder) :
    (∀ f : FileState, f.pointerSize = 64 → f.fileBlocks64 keyDNA1 = none →
       readSDNA f = .error (.blockNotFound keyDNA1)) ∧
    (∀ (f : FileState) (b : FileBlock64) (i4 t4 c4 extra : List Nat)
       (names : List (List Nat)),
       f.pointerSize = 64 → f.order = some o →
       f.fileBlocks64 keyDNA1 = some b →
       i4.length = 4 → t4.length = 4 → c4.length = 4 →
       decodeUint o c4 = names.length →
       (∀ nm ∈ names, 0 ∉ nm) →
       b.data = i4 ++ (t4 ++ (c4 ++ (packNames names ++ extra))) →
       readSDNA f = .ok ⟨i4, t4, names.length, names⟩) := by
  constructor
  · intro f hps hnone
    have h1 : getFileBlockData f keyDNA1 = .error (.blockNotFound keyDNA1) := by
      unfold getFileBlockData
      rw [if_pos hps, hnone]
    simp only [readSDNA, h1]
  · intro f b i4 t4 c4 extra names hps horder hsome h4i h4t h4c hcount hnul hdata
    have h1 : getFileBlockData f keyDNA1 = .ok b.data := by
      unfold getFileBlockData
      rw [if_pos hps, hsome]
    have h2 : readNextBytes b.data 4 =
        .ok (i4, t4 ++ (c4 ++ (packNames names ++ extra))) := by
      rw [hdata, readNextBytes_exact _ 4 (by simp [h4i]), List.take_left' h4i,
        List.drop_left' h4i]
    have h3 : readNextBytes (t4 ++ (c4 ++ (packNames names ++ extra))) 4 =
        .ok (t4, c4 ++ (packNames names ++ extra)) := by
      rw [readNextBytes_exact _ 4 (by simp [h4t]), List.take_left' h4t, List.drop_left' h4t]
    have h4 : readNextBytes (c4 ++ (packNames names ++ extra)) 4 =
        .ok (c4, packNames names ++ extra) := by
      rw [readNextBytes_exact _ 4 (by simp [h4c]), List.take_left' h4c, List.drop_left' h4c]
    have hpack : readNames names.length [] [] (packNames names ++ extra) = .ok names := by
      rw [readNames_pack names hnul [] extra]
      simp
    simp only [readSDNA, h1, h2, h3, h4, horder, Option.getD_some, hcount, hpack]

/-- C8 witness: the schema decoding at the concrete two-name payload and the
missing-block failure at the empty catalog. -/
theorem C8_sdna_witness :
    readSDNA ⟨dummyHeader, some ByteOrder.little, 64,
        mapInsert64 emptyMap64 keyDNA1 dnaBlock, emptyMap32⟩ =
      .ok ⟨[83, 68, 78, 65], [78, 65, 77, 69],
        ([[73, 68], [77, 69]] : List (List Nat)).length, [[73, 68], [77, 69]]⟩ ∧
    readSDNA ⟨dummyHeader, some ByteOrder.little, 64, emptyMap64, emptyMap32⟩ =
      .error (.blockNotFound keyDNA1) :=
  ⟨(C8_sdna ByteOrder.little).2
      ⟨dummyHeader, some ByteOrder.little, 64, mapInsert64 emptyMap64 keyDNA1 dnaBlock,
        emptyMap32⟩
      dnaBlock [83, 68, 78, 65] [78, 65, 77, 69] [2, 0, 0, 0] [] [[73, 68], [77, 69]]
      rfl rfl (by decide) (by decide) (by decide) (by decide) (by decide) (by decide) rfl,
   (C8_sdna ByteOrder.little).1
      ⟨dummyHeader, some ByteOrder.little, 64, emptyMap64, emptyMap32⟩ rfl rfl⟩

/-- A 24-byte little-endian 64-bit block header: code bytes 65 66 ("AC")
followed by two NUL padding bytes, size 1, address 7. -/
def acHeader : List Nat :=
  [65, 67, 0, 0, 1, 0, 0, 0, 7, 0, 0, 0, 0, 0, 0, 0, 0, 0, 0, 0, 0, 0, 0, 0]

/-- C9: a block whose 4-byte code is a NUL-free prefix followed by NUL padding
is indexed under, and looked up by, the code with the trailing NUL bytes
stripped: scanning a single such framed block and asking `getFileBlockData`
for the stripped prefix returns the block's payload. -/
theorem C9_nul_stripped_lookup (o : ByteOrder) (hdrv : FileHeader) (p : List Nat) (k : Nat)
    (h24 data : List Nat) (hp : 0 ∉ p) (hlen : h24.length = 24)
    (hcode : (parseBlockHeader64 o h24).Code = p ++ List.replicate k 0)
    (hsz : (parseBlockHeader64 o h24).Size = data.length) :
    ∃ m64, readFileBlocks o 64 (h24 ++ (data ++ [])) emptyMap64 emptyMap32
        = .ok (m64, emptyMap32) ∧
      getFileBlockData ⟨hdrv, some o, 64, m64, emptyMap32⟩ p = .ok data := by
  refine ⟨mapInsert64 emptyMap64 (byteSliceToString (parseBlockHeader64 o h24).Code)
      ⟨parseBlockHeader64 o h24, data⟩, ?_, ?_⟩
  · unfold readFileBlocks
    rw [if_pos rfl, readFileBlocks64_step o h24 data [] _ hlen hsz, readFileBlocks64_nil]
  · have hkey : byteSliceToString (parseBlockHeader64 o h24).Code = p := by
      rw [hcode]
      exact byteSliceToString_strip p k hp
    unfold getFileBlockData mapInsert64
    rw [hkey]
    simp

/-- C9 witness: the block with code bytes "AC" plus two NULs and payload `[7]`
is retrievable under the two-character key "AC". -/
theorem C9_nul_stripped_lookup_witness :
    ∃ m64, readFileBlocks ByteOrder.little 64 (acHeader ++ ([7] ++ []))
        emptyMap64 emptyMap32 = .ok (m64, emptyMap32) ∧
      getFileBlockData ⟨dummyHeader, some ByteOrder.little, 64, m64, emptyMap32⟩ [65, 67]
        = .ok [7] :=
  C9_nul_stripped_lookup ByteOrder.little dummyHeader [65, 67] 2 acHeader [7]
    (by decide) (by decide) (by decide) (by decide)

/-- C10: calling the read method while the byte order is still undetermined
(nil) panics rather than returning an error value; and for every `File` value a
successful `NewFile` hands back, the order is set, so no call to the read
method on that file can panic. -/
theorem C10_read_panic_guard :
    (∀ (s : List Nat) (n : Nat), fileRead none s n = ReadOutcome.panicked) ∧
    (∀ (s : List Nat) (f : FileState) (rest : List Nat), NewFile s = .ok (f, rest) →
      ∀ (s2 : List Nat) (n : Nat), fileRead f.order s2 n ≠ ReadOutcome.panicked) := by
  constructor
  · intro s n
    rfl
  · intro s f rest h s2 n
    have horder : ∃ o, f.order = some o := by
      unfold NewFile at h
      cases hh : readHeader s with
      | error e =>
        rw [hh] at h
        exact absurd h (by simp)
      | ok q =>
        obtain ⟨hdr, o, ps, rest2⟩ := q
        rw [hh] at h
        simp only [Except.ok.injEq, Prod.mk.injEq] at h
        exact ⟨o, by rw [← h.1]⟩
    obtain ⟨o, ho⟩ := horder
    rw [ho]
    unfold fileRead
    split
    · next heq => exact absurd heq (by simp)
    · next o2 heq =>
      split
      · simp
      · simp

/-- C10 witness: the panic on a nil order and its absence on the file built by
`NewFile` from the concrete header "BLENDER-v280". -/
theorem C10_read_panic_guard_witness :
    fileRead none [0] 1 = ReadOutcome.panicked ∧
    fileRead (initialFileState (parseFileHeader hdr12le) ByteOrder.little 64).order [0] 1
      ≠ ReadOutcome.panicked :=
  ⟨C10_read_panic_guard.1 [0] 1,
   C10_read_panic_guard.2 hdr12le (initialFileState (parseFileHeader hdr12le) ByteOrder.little 64)
     [] (by rfl) [0] 1⟩

end Blend
